import Mathlib

/-! Shallow embedding of `crates/editor/src/bracket_highlights.rs`: rainbow
bracket highlighting and the cursor-enclosing bracket-pair highlight.
External collaborators (multi-buffer snapshot, excerpt mapping, settings
storage, highlight rendering) appear as explicit data: the results of the
calls the refresh makes on them are fields of the state records below. -/

namespace BracketHighlights

/-- Row and column text position in composite coordinates (the text crate's point type). -/
structure Point where
  row : Nat
  col : Nat
deriving DecidableEq

/-- Byte-offset range; `stop` stands for the source's `end` field, which is a Lean keyword. -/
structure Range where
  start : Nat
  stop : Nat
deriving DecidableEq

/-- Rainbow-bracket settings read from the editor settings: the feature toggle, the
start hue and the hue step. The configuration floats are modelled exactly as rationals. -/
structure RainbowSettings where
  enabled : Bool
  start_hue : ℚ
  hue_step : ℚ
deriving DecidableEq

/-- Modelled from the spec: the external color value, kept abstract as its four
hue, saturation, lightness, alpha components. -/
structure Hsla where
  h : ℚ
  s : ℚ
  l : ℚ
  a : ℚ
deriving DecidableEq

/-- Modelled from the spec: the HSLA color constructor of the external color facility. -/
def hsla (h s l a : ℚ) : Hsla := ⟨h, s, l, a⟩

/-- Truncation toward zero on rationals, as Rust float truncation behaves. -/
def ratTrunc (q : ℚ) : ℤ := if 0 ≤ q then ⌊q⌋ else ⌈q⌉

/-- Rust's floating-point remainder: a % b = a - b * trunc (a / b), keeping the
sign of the dividend. -/
def rustRem (a b : ℚ) : ℚ := a - b * (ratTrunc (a / b) : ℚ)

/-- Lines 35-38: `get_color_for_depth` - the hue cycles with depth by the configured
step from the configured start, reduced with the float remainder by 360, at
saturation 0.75, lightness 0.6 and alpha 1. -/
def get_color_for_depth (settings : RainbowSettings) (depth : Nat) : Hsla :=
  let hue := rustRem (settings.start_hue + (depth : ℚ) * settings.hue_step) 360
  hsla (hue / 360) (3 / 4) (3 / 5) 1

/-- The spec's color formula (spec 4.4), stated with the mathematical mod whose
result lies in [0, 360) for the positive modulus 360. -/
def specColorForDepth (start_hue hue_step : ℚ) (depth : Nat) : Hsla :=
  let x := start_hue + (depth : ℚ) * hue_step
  hsla ((x - 360 * (⌊x / 360⌋ : ℚ)) / 360) (3 / 4) (3 / 5) 1

/-- Modelled from the spec: adding a point of n whole lines and zero columns to a
text point; adding zero lines leaves the point unchanged, adding n at least one
lands at column 0 of row `row + n`. -/
def addLines (p : Point) (n : Nat) : Point :=
  if n = 0 then p else ⟨p.row + n, 0⟩

/-- Length of a document row; rows past the end report as empty. The document is
modelled by its list of line lengths. -/
def lineLen (lines : List Nat) (row : Nat) : Nat := lines.getD row 0

/-- Last valid position of the document. -/
def maxPoint (lines : List Nat) : Point :=
  ⟨lines.length - 1, lineLen lines (lines.length - 1)⟩

/-- Modelled from the spec: clipping with left bias snaps an out-of-bounds point
to the nearest valid document position on its lower/left side. -/
def clip_point (lines : List Nat) (p : Point) : Point :=
  if lines.length ≤ p.row then maxPoint lines
  else ⟨p.row, min p.col (lineLen lines p.row)⟩

/-- A position that actually lies inside the document. -/
def validPoint (lines : List Nat) (p : Point) : Prop :=
  p.row < lines.length ∧ p.col ≤ lineLen lines p.row

instance (lines : List Nat) (p : Point) : Decidable (validPoint lines p) :=
  inferInstanceAs (Decidable (p.row < lines.length ∧ p.col ≤ lineLen lines p.row))

/-- Lower/left (lexicographic) comparison of points. -/
def pointLe (p q : Point) : Prop :=
  p.row < q.row ∨ (p.row = q.row ∧ p.col ≤ q.col)

instance (p q : Point) : Decidable (pointLe p q) :=
  inferInstanceAs (Decidable (p.row < q.row ∨ (p.row = q.row ∧ p.col ≤ q.col)))

/-- Lines 49-53: the ceiled visible line count, defaulting to 40 when unknown.
Rust's cast of a negative ceil to u32 saturates at zero, as `Int.toNat` does. -/
def ceiledLineCount (vlc : Option ℚ) : Nat := (⌈vlc.getD 40⌉).toNat

/-- A bracket pair in buffer-local coordinates with its relative nesting depth,
as returned by the external per-fragment discovery capability. -/
structure BracketPair where
  open_range : Range
  close_range : Range
  depth : Nat
deriving DecidableEq

/-- Modelled from the spec: the excerpt (fragment) mapping capability - the
containment test of a local range against the excerpt's mapped bounds and the
local-to-composite range mapping. -/
structure Excerpt where
  contains_buffer_range : Range → Bool
  map_range_from_buffer : Range → Range

/-- One entry of `range_to_buffer_ranges` over the visible window, carrying the
results of the external calls the refresh makes on it: `bracket_ranges` on the
overlapping local range, and `excerpt_containing` (none when the range resolves
to no excerpt, in which case line 63 drops the whole entry). -/
structure FragmentQuery where
  brackets : List BracketPair
  excerpt : Option Excerpt

/-- Line 69: the pair's full local span, from the start of the opening token to
the end of the closing token. -/
def fullRange (pair : BracketPair) : Range :=
  ⟨pair.open_range.start, pair.close_range.stop⟩

/-- Lines 55-83: per fragment, keep each discovered pair only if the excerpt
contains its full local span, then map open and close ranges into composite
coordinates through that excerpt; entries without an excerpt are dropped. -/
def collectBracketMatches (queries : List FragmentQuery) : List (Nat × Range × Range) :=
  (queries.filterMap (fun fq =>
    fq.excerpt.map (fun ex =>
      fq.brackets.filterMap (fun pair =>
        if ex.contains_buffer_range (fullRange pair) then
          some (pair.depth, ex.map_range_from_buffer pair.open_range,
            ex.map_range_from_buffer pair.close_range)
        else none)))).flatten

/-- Key list in first-occurrence order without duplicates. -/
def dedupKeys : List Nat → List Nat
  | [] => []
  | k :: rest => k :: (dedupKeys rest).filter (fun x => x != k)

/-- Line 84: grouping of the surviving triples on their depth component, as the
group-map operation does; the highlight store is keyed, so group order is
irrelevant to the submitted layers. -/
def groupByDepth (l : List (Nat × Range × Range)) :
    List (Nat × List (Nat × Range × Range)) :=
  (dedupKeys (l.map Prod.fst)).map (fun d => (d, l.filter (fun t => t.fst == d)))

/-- One rainbow layer: the flattened open/close boundary ranges and the depth's style color. -/
structure RainbowLayer where
  ranges : List Range
  color : Hsla
deriving DecidableEq

/-- Lines 86-113: the per-depth keyed highlight submissions of one refresh - for
each depth group, the open and close ranges of its pairs in order, with the
depth's color. -/
def emittedRainbow (settings : RainbowSettings) (queries : List FragmentQuery) :
    List (Nat × RainbowLayer) :=
  (groupByDepth (collectBracketMatches queries)).map (fun g =>
    (g.fst,
      ⟨(g.snd.map (fun t => [t.snd.fst, t.snd.snd])).flatten,
        get_color_for_depth settings g.fst⟩))

/-- Modelled from the spec: the keyed highlight store owned by the external
rendering mechanism. Submitting replaces by key; keys not submitted persist.
The enclosing-pair layer holds the ranges of the single enclosing highlight. -/
@[ext]
structure Layers where
  rainbow : Nat → Option RainbowLayer
  enclosing : Option (List Range)

/-- Replace-on-key application of the rainbow submissions to the store. -/
def submitRainbow (subs : List (Nat × RainbowLayer))
    (store : Nat → Option RainbowLayer) : Nat → Option RainbowLayer :=
  subs.foldl (fun acc s => fun k => if k = s.fst then some s.snd else acc k) store

/-- Last submission for a key, if any. -/
def lastBinding (k : Nat) : List (Nat × RainbowLayer) → Option RainbowLayer
  | [] => none
  | s :: t =>
    match lastBinding k t with
    | some v => some v
    | none => if k = s.fst then some s.snd else none

/-- The cursor shapes of the language crate. -/
inductive CursorShape
  | bar
  | block
  | underline
  | hollow
deriving DecidableEq

/-- The newest selection resolved to offsets. -/
structure Selection where
  start : Nat
  stop : Nat
  reversed : Bool
deriving DecidableEq

/-- A selection is empty when its endpoints coincide. -/
def Selection.is_empty (s : Selection) : Bool := s.start == s.stop

/-- The moving end of the selection. -/
def Selection.head (s : Selection) : Nat := if s.reversed then s.start else s.stop

/-- The editor and snapshot state one refresh reads, with the external
capabilities it consults as function-valued fields: the scroll anchor resolved
to a point, the visible line count, the document's line lengths and byte
length, the fragment queries for a window, the newest selection, the cursor
shape, the byte length of the character starting at an offset (none at
document end), and the innermost-enclosing-pair lookup. -/
structure EditorState where
  scroll_anchor_point : Point
  visible_line_count : Option ℚ
  doc_lines : List Nat
  len : Nat
  range_to_buffer_ranges : Point → Point → List FragmentQuery
  newest_selection : Selection
  cursor_shape : CursorShape
  char_len_at : Nat → Option Nat
  innermost_enclosing : Nat → Nat → Option (Range × Range)

/-- Lines 13-18: the refresh triggers. -/
inductive BracketRefreshReason
  | BufferEdited
  | ScrollPositionChanged
  | SelectionsChanged
deriving DecidableEq

/-- Lines 43-53: the visible window - it starts at the scroll anchor and ends at
the anchor advanced by the ceiled visible line count, clipped left into the
document. -/
def visibleWindow (st : EditorState) : Point × Point :=
  (st.scroll_anchor_point,
    clip_point st.doc_lines
      (addLines st.scroll_anchor_point (ceiledLineCount st.visible_line_count)))

/-- The fragment queries for the current visible window. -/
def refreshQueries (st : EditorState) : List FragmentQuery :=
  st.range_to_buffer_ranges (visibleWindow st).fst (visibleWindow st).snd

/-- Lines 132-139: the tail of the cursor query range - extended past the
character at head under a block or hollow cursor strictly before document end,
otherwise equal to head. -/
def cursorTail (st : EditorState) (head : Nat) : Nat :=
  if (st.cursor_shape = CursorShape.block ∨ st.cursor_shape = CursorShape.hollow)
      ∧ head < st.len then
    match st.char_len_at head with
    | some l => head + l
    | none => head
  else head

/-- Lines 118-153: the cursor-enclosing step. It always clears the enclosing
layer first, stops on a non-empty selection, logs and aborts on an
out-of-range head (the boolean records that log), and otherwise emits the
innermost enclosing pair found for head..tail, if any. -/
def cursorStep (st : EditorState) : Option (List Range) × Bool :=
  let sel := st.newest_selection
  if !sel.is_empty then (none, false)
  else if st.len < sel.head then (none, true)
  else
    match st.innermost_enclosing sel.head (cursorTail st sel.head) with
    | some oc => (some [oc.fst, oc.snd], false)
    | none => (none, false)

/-- Result of one refresh: the layer store afterwards and whether the
out-of-range cursor error was logged. -/
structure RefreshResult where
  layers : Layers
  logged_out_of_range : Bool

/-- Lines 22-154: the refresh orchestrator. It returns at once when the rainbow
feature is disabled; otherwise it submits the rainbow layers for the visible
window, then - except on a scroll-only refresh - runs the cursor-enclosing
step, whose outcome replaces the enclosing layer. -/
def refresh_bracket_highlights (settings : RainbowSettings) (st : EditorState)
    (reason : BracketRefreshReason) (layers : Layers) : RefreshResult :=
  if !settings.enabled then ⟨layers, false⟩
  else
    let rainbow1 := submitRainbow (emittedRainbow settings (refreshQueries st)) layers.rainbow
    if reason = BracketRefreshReason.ScrollPositionChanged then
      ⟨⟨rainbow1, layers.enclosing⟩, false⟩
    else
      ⟨⟨rainbow1, (cursorStep st).fst⟩, (cursorStep st).snd⟩

/-- Rainbow enabled, start hue 0, hue step 30. -/
def settingsOn : RainbowSettings := ⟨true, 0, 30⟩

/-- Rainbow enabled, start hue 350, hue step 30. -/
def settingsWrap : RainbowSettings := ⟨true, 350, 30⟩

/-- Rainbow enabled, negative start hue -10, hue step 30. -/
def settingsNeg : RainbowSettings := ⟨true, -10, 30⟩

/-- Rainbow disabled. -/
def settingsOff : RainbowSettings := ⟨false, 0, 30⟩

/-- An excerpt whose mapped bounds cover local offsets up to 10, shifting ranges
by 100 into composite coordinates. -/
def exExcerpt : Excerpt :=
  ⟨fun r => decide (r.stop ≤ 10), fun r => ⟨r.start + 100, r.stop + 100⟩⟩

/-- A depth-0 pair wholly inside the bounds of `exExcerpt`. -/
def exPair : BracketPair := ⟨⟨0, 1⟩, ⟨5, 6⟩, 0⟩

/-- One fragment query returning `exPair` under `exExcerpt`. -/
def exQueries : List FragmentQuery := [⟨[exPair], some exExcerpt⟩]

/-- The layer the pipeline emits for `exQueries` at depth 0. -/
def exLayer : RainbowLayer :=
  ⟨[⟨100, 101⟩, ⟨105, 106⟩], get_color_for_depth settingsOn 0⟩

/-- Editor state fixture: block cursor, empty selection at offset 2 inside a
5-byte document of three lines, with an enclosing pair 0..1 and 4..5. -/
def stA : EditorState :=
  ⟨⟨1, 2⟩, some (5 / 2), [4, 4, 4], 5, fun _ _ => [], ⟨2, 2, false⟩,
    CursorShape.block, fun _ => some 1, fun _ _ => some (⟨0, 1⟩, ⟨4, 5⟩)⟩

/-- Like `stA` with a non-empty selection 1..3. -/
def stB : EditorState :=
  ⟨⟨1, 2⟩, some (5 / 2), [4, 4, 4], 5, fun _ _ => [], ⟨1, 3, false⟩,
    CursorShape.block, fun _ => some 1, fun _ _ => some (⟨0, 1⟩, ⟨4, 5⟩)⟩

/-- Like `stA` with an empty selection at offset 9, past the 5-byte document. -/
def stC : EditorState :=
  ⟨⟨1, 2⟩, some (5 / 2), [4, 4, 4], 5, fun _ _ => [], ⟨9, 9, false⟩,
    CursorShape.block, fun _ => some 1, fun _ _ => some (⟨0, 1⟩, ⟨4, 5⟩)⟩

/-- A layer store holding a stale enclosing-pair highlight. -/
def layersStale : Layers := ⟨fun _ => none, some [⟨0, 1⟩, ⟨3, 4⟩]⟩

theorem submitRainbow_eq_lastBinding (subs : List (Nat × RainbowLayer))
    (store : Nat → Option RainbowLayer) (k : Nat) :
    submitRainbow subs store k =
      match lastBinding k subs with
      | some v => some v
      | none => store k := by
  induction subs generalizing store with
  | nil => rfl
  | cons s t ih =>
    have h1 : submitRainbow (s :: t) store k =
        submitRainbow t (fun k2 => if k2 = s.fst then some s.snd else store k2) k := rfl
    rw [h1, ih]
    simp only [lastBinding]
    cases h2 : lastBinding k t with
    | some v => rfl
    | none => by_cases hk : k = s.fst <;> simp [hk]

theorem submitRainbow_idem (subs : List (Nat × RainbowLayer))
    (store : Nat → Option RainbowLayer) :
    submitRainbow subs (submitRainbow subs store) = submitRainbow subs store := by
  funext k
  rw [submitRainbow_eq_lastBinding]
  cases h : lastBinding k subs with
  | some v => rw [submitRainbow_eq_lastBinding, h]
  | none => rfl

/-- C5: with a fixed snapshot, selection state and configuration, running the
refresh a second time with the same reason leaves every highlight layer exactly
as after the first run - same keys, same range sets, same styles. -/
theorem refresh_idempotent (settings : RainbowSettings) (st : EditorState)
    (reason : BracketRefreshReason) (layers : Layers) :
    (refresh_bracket_highlights settings st reason
        (refresh_bracket_highlights settings st reason layers).layers).layers =
      (refresh_bracket_highlights settings st reason layers).layers := by
  unfold refresh_bracket_highlights
  cases h : settings.enabled with
  | false => simp
  | true =>
    by_cases hr : reason = BracketRefreshReason.ScrollPositionChanged <;>
      simp [hr, submitRainbow_idem]

/-- C3: a scroll-only refresh leaves the enclosing-pair layer exactly as it was,
for every configuration, document state and previously emitted layer. -/
theorem scroll_refresh_preserves_enclosing (settings : RainbowSettings)
    (st : EditorState) (layers : Layers) :
    (refresh_bracket_highlights settings st
        BracketRefreshReason.ScrollPositionChanged layers).layers.enclosing =
      layers.enclosing := by
  unfold refresh_bracket_highlights
  cases settings.enabled <;> simp

theorem mem_collectBracketMatches (queries : List FragmentQuery)
    (t : Nat × Range × Range) (ht : t ∈ collectBracketMatches queries) :
    ∃ fq ∈ queries, ∃ ex, fq.excerpt = some ex ∧ ∃ pair ∈ fq.brackets,
      ex.contains_buffer_range (fullRange pair) = true ∧
      t = (pair.depth, ex.map_range_from_buffer pair.open_range,
        ex.map_range_from_buffer pair.close_range) := by
  unfold collectBracketMatches at ht
  obtain ⟨L, hL, htL⟩ := List.mem_flatten.mp ht
  obtain ⟨fq, hfq, hf⟩ := List.mem_filterMap.mp hL
  obtain ⟨ex, hex, hgl⟩ := Option.map_eq_some'.mp hf
  subst hgl
  obtain ⟨pair, hpair, hp⟩ := List.mem_filterMap.mp htL
  by_cases hc : ex.contains_buffer_range (fullRange pair) = true
  · rw [if_pos hc] at hp
    exact ⟨fq, hfq, ex, hex, pair, hpair, hc, (Option.some.inj hp).symm⟩
  · rw [if_neg hc] at hp
    exact absurd hp (Option.noConfusion)

theorem mem_groupByDepth (l : List (Nat × Range × Range))
    (g : Nat × List (Nat × Range × Range)) (hg : g ∈ groupByDepth l) :
    g.snd = l.filter (fun t => t.fst == g.fst) := by
  unfold groupByDepth at hg
  obtain ⟨k, hk, heq⟩ := List.mem_map.mp hg
  subst heq
  rfl

/-- C2: every range occurring in an emitted rainbow layer of depth d comes from
a discovered bracket pair whose full local span the containing excerpt
contains, of that depth, with the range obtained by mapping the pair's open or
close range through that excerpt; hence a pair whose span is not wholly
contained in its fragment's mapped bounds never contributes to any emitted
rainbow layer. -/
theorem emitted_rainbow_from_contained_pairs (settings : RainbowSettings)
    (queries : List FragmentQuery) (d : Nat) (layer : RainbowLayer)
    (hmem : (d, layer) ∈ emittedRainbow settings queries)
    (r : Range) (hr : r ∈ layer.ranges) :
    ∃ fq ∈ queries, ∃ ex, fq.excerpt = some ex ∧ ∃ pair ∈ fq.brackets,
      ex.contains_buffer_range (fullRange pair) = true ∧ pair.depth = d ∧
      (r = ex.map_range_from_buffer pair.open_range ∨
        r = ex.map_range_from_buffer pair.close_range) := by
  unfold emittedRainbow at hmem
  obtain ⟨g, hg, heq⟩ := List.mem_map.mp hmem
  have hd : g.fst = d := congrArg Prod.fst heq
  have hlayer : layer =
      ⟨(g.snd.map (fun t => [t.snd.fst, t.snd.snd])).flatten,
        get_color_for_depth settings g.fst⟩ := (congrArg Prod.snd heq).symm
  rw [hlayer] at hr
  obtain ⟨L, hL, hrL⟩ := List.mem_flatten.mp hr
  obtain ⟨t, htg, htL⟩ := List.mem_map.mp hL
  subst htL
  have htfilter : t ∈ (collectBracketMatches queries).filter (fun t2 => t2.fst == g.fst) := by
    rw [← mem_groupByDepth (collectBracketMatches queries) g hg]
    exact htg
  have htmem := (List.mem_filter.mp htfilter).left
  have htdepth : t.fst = g.fst := by
    have := (List.mem_filter.mp htfilter).right
    exact eq_of_beq this
  obtain ⟨fq, hfq, ex, hex, pair, hpair, hc, hteq⟩ :=
    mem_collectBracketMatches queries t htmem
  refine ⟨fq, hfq, ex, hex, pair, hpair, hc, ?_, ?_⟩
  · have : t.fst = pair.depth := by rw [hteq]
    rw [← this, htdepth, hd]
  · have hopen : t.snd.fst = ex.map_range_from_buffer pair.open_range := by rw [hteq]
    have hclose : t.snd.snd = ex.map_range_from_buffer pair.close_range := by rw [hteq]
    rcases List.mem_pair.mp hrL with h | h
    · exact Or.inl (h.trans hopen)
    · exact Or.inr (h.trans hclose)

/-- C2 witness: the concrete pipeline run on `exQueries` emits the depth-0 layer
whose first range maps back to `exPair` through `exExcerpt`. -/
theorem emitted_rainbow_from_contained_pairs_witness :
    ∃ fq ∈ exQueries, ∃ ex, fq.excerpt = some ex ∧ ∃ pair ∈ fq.brackets,
      ex.contains_buffer_range (fullRange pair) = true ∧ pair.depth = 0 ∧
      ((⟨100, 101⟩ : Range) = ex.map_range_from_buffer pair.open_range ∨
        (⟨100, 101⟩ : Range) = ex.map_range_from_buffer pair.close_range) :=
  emitted_rainbow_from_contained_pairs settingsOn exQueries 0 exLayer
    (List.mem_singleton_self ((0 : Nat), exLayer)) ⟨100, 101⟩ (by decide)

/-- C1: with the rainbow feature disabled in configuration, the refresh returns
at the configuration gate and the cursor-enclosing step never runs - a stale
enclosing-pair layer survives a SelectionsChanged refresh untouched, even
though the cursor step, had it run, would have cleared it and emitted the
fresh enclosing pair. -/
theorem disabled_gate_skips_cursor_step :
    (refresh_bracket_highlights settingsOff stA
        BracketRefreshReason.SelectionsChanged layersStale).layers.enclosing =
      some [⟨0, 1⟩, ⟨3, 4⟩] ∧
    cursorStep stA = (some [⟨0, 1⟩, ⟨4, 5⟩], false) :=
  ⟨rfl, rfl⟩

theorem rustRem_of_lt (x : ℚ) (h0 : 0 ≤ x) (h1 : x < 360) : rustRem x 360 = x := by
  have hq : (0 : ℚ) ≤ x / 360 := div_nonneg h0 (by norm_num)
  have hf : ⌊x / 360⌋ = 0 := by
    rw [Int.floor_eq_zero_iff, Set.mem_Ico]
    refine ⟨hq, ?_⟩
    rw [div_lt_one (by norm_num : (0 : ℚ) < 360)]
    exact h1
  unfold rustRem ratTrunc
  rw [if_pos hq, hf]
  norm_num

theorem rustRem_wrap (x : ℚ) (h0 : 360 ≤ x) (h1 : x < 720) :
    rustRem x 360 = x - 360 := by
  have hq : (0 : ℚ) ≤ x / 360 := div_nonneg (by linarith) (by norm_num)
  have hf : ⌊x / 360⌋ = 1 := by
    rw [Int.floor_eq_iff]
    constructor
    · rw [le_div_iff₀ (by norm_num : (0 : ℚ) < 360)]
      push_cast
      linarith
    · rw [div_lt_iff₀ (by norm_num : (0 : ℚ) < 360)]
      push_cast
      linarith
  unfold rustRem ratTrunc
  rw [if_pos hq, hf]
  push_cast
  ring

theorem get_color_eq (settings : RainbowSettings) (d : Nat) (x : ℚ)
    (hx : settings.start_hue + (d : ℚ) * settings.hue_step = x)
    (h0 : 0 ≤ x) (h1 : x < 360) :
    get_color_for_depth settings d = hsla (x / 360) (3 / 4) (3 / 5) 1 := by
  simp only [get_color_for_depth]
  rw [hx, rustRem_of_lt x h0 h1]

theorem get_color_eq_wrap (settings : RainbowSettings) (d : Nat) (x : ℚ)
    (hx : settings.start_hue + (d : ℚ) * settings.hue_step = x)
    (h0 : 360 ≤ x) (h1 : x < 720) :
    get_color_for_depth settings d = hsla ((x - 360) / 360) (3 / 4) (3 / 5) 1 := by
  simp only [get_color_for_depth]
  rw [hx, rustRem_wrap x h0 h1]

/-- C4 counterexample: at start_hue = -10, hue_step = 30, depth 0 the code's
truncating float remainder yields hue -10 while the claim's mod-360 formula
yields hue 350, so the two colors differ. -/
theorem color_formula_counterexample :
    get_color_for_depth settingsNeg 0 ≠ specColorForDepth (-10) 30 0 := by
  have htr : ratTrunc ((-10 : ℚ) / 360) = 0 := by
    unfold ratTrunc
    rw [if_neg (by norm_num), Int.ceil_eq_zero_iff, Set.mem_Ioc]
    constructor <;> norm_num
  have hrem : rustRem (-10 : ℚ) 360 = -10 := by
    unfold rustRem
    rw [htr]
    norm_num
  have hfl : ⌊(-10 : ℚ) / 360⌋ = -1 := by
    rw [Int.floor_eq_iff]
    constructor <;> norm_num
  have h1 : get_color_for_depth settingsNeg 0 = hsla ((-10 : ℚ) / 360) (3 / 4) (3 / 5) 1 := by
    simp only [get_color_for_depth, settingsNeg]
    norm_num [hrem]
  have h2 : specColorForDepth (-10) 30 0 = hsla ((350 : ℚ) / 360) (3 / 4) (3 / 5) 1 := by
    simp only [specColorForDepth]
    norm_num [hfl]
  rw [h1, h2]
  intro h
  have hh := congrArg Hsla.h h
  simp only [hsla] at hh
  norm_num at hh

/-- C4 amended: the code reduces the hue with Rust's truncating remainder, which
agrees with the claim's mod-360 formula whenever start_hue and hue_step are
nonnegative; in particular the claimed examples hold - start 0 step 30 gives
hues 0, 30, 60 degrees at depths 0, 1, 2, pairwise distinct, and start 350
step 30 wraps depth 1 to 20 degrees. -/
theorem color_formula_nonneg (settings : RainbowSettings)
    (hsh : 0 ≤ settings.start_hue) (hhs : 0 ≤ settings.hue_step) (d : Nat) :
    get_color_for_depth settings d =
      specColorForDepth settings.start_hue settings.hue_step d ∧
    get_color_for_depth settingsOn 0 = hsla (0 / 360) (3 / 4) (3 / 5) 1 ∧
    get_color_for_depth settingsOn 1 = hsla (30 / 360) (3 / 4) (3 / 5) 1 ∧
    get_color_for_depth settingsOn 2 = hsla (60 / 360) (3 / 4) (3 / 5) 1 ∧
    get_color_for_depth settingsOn 0 ≠ get_color_for_depth settingsOn 1 ∧
    get_color_for_depth settingsOn 0 ≠ get_color_for_depth settingsOn 2 ∧
    get_color_for_depth settingsOn 1 ≠ get_color_for_depth settingsOn 2 ∧
    get_color_for_depth settingsWrap 1 = hsla (20 / 360) (3 / 4) (3 / 5) 1 := by
  have e0 := get_color_eq settingsOn 0 0 (by norm_num [settingsOn]) (by norm_num) (by norm_num)
  have e1 := get_color_eq settingsOn 1 30 (by norm_num [settingsOn]) (by norm_num) (by norm_num)
  have e2 := get_color_eq settingsOn 2 60 (by norm_num [settingsOn]) (by norm_num) (by norm_num)
  have ew := get_color_eq_wrap settingsWrap 1 380 (by norm_num [settingsWrap]) (by norm_num) (by norm_num)
  refine ⟨?_, e0, e1, e2, ?_, ?_, ?_, ?_⟩
  · have hx : (0 : ℚ) ≤ settings.start_hue + (d : ℚ) * settings.hue_step :=
      add_nonneg hsh (mul_nonneg (by positivity) hhs)
    simp only [get_color_for_depth, specColorForDepth, rustRem, ratTrunc]
    rw [if_pos (div_nonneg hx (by norm_num))]
  · rw [e0, e1]
    intro h
    have hh := congrArg Hsla.h h
    simp only [hsla] at hh
    norm_num at hh
  · rw [e0, e2]
    intro h
    have hh := congrArg Hsla.h h
    simp only [hsla] at hh
    norm_num at hh
  · rw [e1, e2]
    intro h
    have hh := congrArg Hsla.h h
    simp only [hsla] at hh
    norm_num at hh
  · rw [ew]
    norm_num

/-- C4 amended witness: the wraparound configuration at depth 1. -/
theorem color_formula_nonneg_witness :
    get_color_for_depth settingsWrap 1 =
      specColorForDepth settingsWrap.start_hue settingsWrap.hue_step 1 :=
  (color_formula_nonneg settingsWrap (by decide) (by decide) 1).left

/-- C6 counterexample: with the rainbow feature disabled, a SelectionsChanged
refresh with a non-empty selection leaves the previously emitted
enclosing-pair layer in place instead of clearing it. -/
theorem nonempty_selection_counterexample :
    (refresh_bracket_highlights settingsOff stB
        BracketRefreshReason.SelectionsChanged layersStale).layers.enclosing =
      some [⟨0, 1⟩, ⟨3, 4⟩] ∧
    (refresh_bracket_highlights settingsOff stB
        BracketRefreshReason.SelectionsChanged layersStale).layers.enclosing ≠
      none :=
  ⟨rfl, by decide⟩

/-- C6 amended: with the rainbow feature enabled, every refresh whose reason is
not ScrollPositionChanged and whose newest selection is non-empty leaves the
enclosing-pair layer cleared, emitting no new enclosing highlight, whatever
pair encloses the selection. -/
theorem nonempty_selection_clears_enclosing (settings : RainbowSettings)
    (st : EditorState) (reason : BracketRefreshReason) (layers : Layers)
    (hen : settings.enabled = true)
    (hreason : reason ≠ BracketRefreshReason.ScrollPositionChanged)
    (hsel : st.newest_selection.is_empty = false) :
    (refresh_bracket_highlights settings st reason layers).layers.enclosing = none := by
  unfold refresh_bracket_highlights cursorStep
  simp [hen, hreason, hsel]

/-- C6 amended witness: the non-empty selection 1..3 clears the stale layer. -/
theorem nonempty_selection_clears_enclosing_witness :
    (refresh_bracket_highlights settingsOn stB
        BracketRefreshReason.SelectionsChanged layersStale).layers.enclosing = none :=
  nonempty_selection_clears_enclosing settingsOn stB
    BracketRefreshReason.SelectionsChanged layersStale rfl (by decide) rfl

/-- C8 counterexample: with the rainbow feature disabled, an out-of-range empty
cursor triggers no log and the enclosing layer is not even cleared - the whole
refresh returns at the configuration gate. -/
theorem out_of_range_counterexample :
    (refresh_bracket_highlights settingsOff stC
        BracketRefreshReason.SelectionsChanged layersStale).logged_out_of_range =
      false ∧
    (refresh_bracket_highlights settingsOff stC
        BracketRefreshReason.SelectionsChanged layersStale).layers.enclosing =
      some [⟨0, 1⟩, ⟨3, 4⟩] :=
  ⟨rfl, rfl⟩

/-- C8 amended: with the rainbow feature enabled, a non-scroll refresh whose
empty selection head exceeds the document length logs the error and aborts
only the cursor-highlight step - the enclosing layer stays cleared - while the
rainbow submissions for the visible window have been applied in full by that
same call. -/
theorem out_of_range_cursor_aborts_step (settings : RainbowSettings)
    (st : EditorState) (reason : BracketRefreshReason) (layers : Layers)
    (hen : settings.enabled = true)
    (hreason : reason ≠ BracketRefreshReason.ScrollPositionChanged)
    (hsel : st.newest_selection.is_empty = true)
    (hhead : st.len < st.newest_selection.head) :
    (refresh_bracket_highlights settings st reason layers).logged_out_of_range = true ∧
    (refresh_bracket_highlights settings st reason layers).layers.enclosing = none ∧
    (refresh_bracket_highlights settings st reason layers).layers.rainbow =
      submitRainbow (emittedRainbow settings (refreshQueries st)) layers.rainbow := by
  unfold refresh_bracket_highlights cursorStep
  simp [hen, hreason, hsel, hhead]

/-- C8 amended witness: the empty cursor at offset 9 of a 5-byte document. -/
theorem out_of_range_cursor_aborts_step_witness :
    (refresh_bracket_highlights settingsOn stC
        BracketRefreshReason.SelectionsChanged layersStale).logged_out_of_range = true ∧
    (refresh_bracket_highlights settingsOn stC
        BracketRefreshReason.SelectionsChanged layersStale).layers.enclosing = none ∧
    (refresh_bracket_highlights settingsOn stC
        BracketRefreshReason.SelectionsChanged layersStale).layers.rainbow =
      submitRainbow (emittedRainbow settingsOn (refreshQueries stC))
        layersStale.rainbow :=
  out_of_range_cursor_aborts_step settingsOn stC
    BracketRefreshReason.SelectionsChanged layersStale rfl (by decide) rfl (by decide)

theorem clip_point_valid (lines : List Nat) (p : Point) (hlen : 0 < lines.length) :
    validPoint lines (clip_point lines p) := by
  unfold clip_point maxPoint validPoint
  by_cases h : lines.length ≤ p.row
  · rw [if_pos h]
    exact ⟨show lines.length - 1 < lines.length from by omega,
      show lineLen lines (lines.length - 1) ≤ lineLen lines (lines.length - 1) from
        le_refl _⟩
  · rw [if_neg h]
    exact ⟨show p.row < lines.length from by omega,
      show min p.col (lineLen lines p.row) ≤ lineLen lines p.row from
        min_le_right _ _⟩

theorem clip_point_le (lines : List Nat) (p : Point) (hlen : 0 < lines.length) :
    pointLe (clip_point lines p) p := by
  unfold clip_point maxPoint pointLe
  by_cases h : lines.length ≤ p.row
  · rw [if_pos h]
    exact Or.inl (by show lines.length - 1 < p.row; omega)
  · rw [if_neg h]
    exact Or.inr ⟨rfl, min_le_left _ _⟩

/-- C7: for every scroll anchor inside the document and every visible-line
count - zero, fractional (rounded up) or unknown (defaulting to 40) - the
visible window starts at the scroll anchor and ends at the anchor advanced by
the ceiled line count, clipped with lower/left bias, so both ends stay inside
the document and the clipped end never lies beyond the requested end. -/
theorem viewport_window_resolution (st : EditorState)
    (hanchor : validPoint st.doc_lines st.scroll_anchor_point) :
    (visibleWindow st).fst = st.scroll_anchor_point ∧
    (visibleWindow st).snd =
      clip_point st.doc_lines
        (addLines st.scroll_anchor_point (ceiledLineCount st.visible_line_count)) ∧
    validPoint st.doc_lines (visibleWindow st).fst ∧
    validPoint st.doc_lines (visibleWindow st).snd ∧
    pointLe (visibleWindow st).snd
      (addLines st.scroll_anchor_point (ceiledLineCount st.visible_line_count)) ∧
    ceiledLineCount none = 40 ∧
    ceiledLineCount (some (5 / 2)) = 3 ∧
    ceiledLineCount (some 0) = 0 := by
  have hlen : 0 < st.doc_lines.length := Nat.lt_of_le_of_lt (Nat.zero_le _) hanchor.1
  refine ⟨rfl, rfl, hanchor, clip_point_valid _ _ hlen, clip_point_le _ _ hlen, ?_, ?_, ?_⟩
  · show (⌈((40 : ℚ))⌉).toNat = 40
    rw [show ⌈((40 : ℚ))⌉ = 40 from by
      rw [Int.ceil_eq_iff]
      constructor <;> norm_num]
    rfl
  · show (⌈((5 : ℚ) / 2)⌉).toNat = 3
    rw [show ⌈((5 : ℚ) / 2)⌉ = 3 from by
      rw [Int.ceil_eq_iff]
      constructor <;> norm_num]
    rfl
  · show (⌈((0 : ℚ))⌉).toNat = 0
    rw [show ⌈((0 : ℚ))⌉ = 0 from by
      rw [Int.ceil_eq_iff]
      constructor <;> norm_num]
    rfl

/-- C7 witness: the fixture anchor (1, 2) with a fractional line count. -/
theorem viewport_window_resolution_witness :
    (visibleWindow stA).fst = stA.scroll_anchor_point ∧
    (visibleWindow stA).snd =
      clip_point stA.doc_lines
        (addLines stA.scroll_anchor_point (ceiledLineCount stA.visible_line_count)) ∧
    validPoint stA.doc_lines (visibleWindow stA).fst ∧
    validPoint stA.doc_lines (visibleWindow stA).snd ∧
    pointLe (visibleWindow stA).snd
      (addLines stA.scroll_anchor_point (ceiledLineCount stA.visible_line_count)) ∧
    ceiledLineCount none = 40 ∧
    ceiledLineCount (some (5 / 2)) = 3 ∧
    ceiledLineCount (some 0) = 0 :=
  viewport_window_resolution stA (by decide)

/-- C9: in the cursor-enclosing step with an empty selection at head, the range
handed to the innermost-enclosing lookup extends to the end of the character
at head exactly when the cursor shape is block or hollow and head is strictly
before document end; for any other shape, or at document end, it stays the
empty range at head. -/
theorem cursor_query_range (st : EditorState) (head : Nat) :
    ((st.cursor_shape = CursorShape.block ∨ st.cursor_shape = CursorShape.hollow) →
      head < st.len →
      ∀ l, st.char_len_at head = some l → cursorTail st head = head + l) ∧
    ((st.cursor_shape ≠ CursorShape.block ∧ st.cursor_shape ≠ CursorShape.hollow) →
      cursorTail st head = head) ∧
    (st.len ≤ head → cursorTail st head = head) := by
  refine ⟨?_, ?_, ?_⟩
  · intro hs hlt l hl
    unfold cursorTail
    rw [if_pos ⟨hs, hlt⟩, hl]
  · intro hs
    unfold cursorTail
    rw [if_neg]
    intro hc
    rcases hc.1 with h | h
    · exact hs.1 h
    · exact hs.2 h
  · intro hle
    unfold cursorTail
    rw [if_neg]
    intro hc
    exact absurd hc.2 (Nat.not_lt.mpr hle)

/-- C9 witness: the block cursor of the fixture at offset 2 covers the one-byte
character there, so the query range reaches offset 3. -/
theorem cursor_query_range_witness : cursorTail stA 2 = 2 + 1 :=
  (cursor_query_range stA 2).1 (Or.inl rfl) (by decide) 1 rfl

/-- C10: when every character starting inside the document ends inside it, the
extended tail never exceeds the document length, so the query range handed to
the innermost-enclosing lookup stays within document bounds. -/
theorem cursor_tail_in_bounds (st : EditorState) (head : Nat)
    (hwf : ∀ i, i < st.len → ∀ l, st.char_len_at i = some l → i + l ≤ st.len)
    (hhead : head ≤ st.len) :
    cursorTail st head ≤ st.len := by
  unfold cursorTail
  by_cases hc : (st.cursor_shape = CursorShape.block ∨
      st.cursor_shape = CursorShape.hollow) ∧ head < st.len
  · rw [if_pos hc]
    cases hl : st.char_len_at head with
    | some l => exact hwf head hc.2 l hl
    | none => exact hhead
  · rw [if_neg hc]
    exact hhead

/-- C10 witness: the fixture's one-byte characters keep the tail inside its
5-byte document. -/
theorem cursor_tail_in_bounds_witness : cursorTail stA 2 ≤ stA.len :=
  cursor_tail_in_bounds stA 2
    (fun i hi l hl => by
      have h1 : (1 : Nat) = l := Option.some.inj hl
      have h2 : stA.len = 5 := rfl
      omega)
    (by decide)

end BracketHighlights
